import Mathlib

/-
Shallow embedding of `src/repo_miner.py` (GitHub commit/issue mining tool).

The program authenticates against GitHub via an environment token, pages
through a remote collection of commits (`fetch_commits`) or issues
(`fetch_issues`), normalizes every item into a flat record dictionary,
truncates at an optional maximum count, and builds a pandas DataFrame
with a fixed column list.

Modelling decisions:
  * the contents that the remote collections would return
    (`repo.get_commits()`, `repo.get_issues(state=...)`) are passed in as
    explicit lists of remote objects, since the network client is an
    external collaborator;
  * the sequence of client/API interactions is recorded as an event
    trace, in the order the code performs them, so that statements like
    "fails before any network call" can be expressed as an empty trace;
  * `datetime` values are modelled as integer POSIX timestamps in
    seconds; `isoformat()` is modelled by the constructor
    `Value.timeStr`, which stands for the ISO-8601 rendering of the
    timestamp (an injective rendering); `timedelta.days` on the
    difference of two datetimes is floor division of the second
    difference by 86400, which is how Python normalizes timedeltas;
  * `pandas.DataFrame.from_records(records, columns=cols)` keeps exactly
    the columns in `cols`, in order, looking each name up in every record
    dictionary; a name not present in the records yields an all-NA
    column (pandas documented behaviour).  Both Python `None` and pandas
    NA are modelled as the absent cell `none`.
-/

namespace RepoMiner

/-- A concrete (non-absent) cell value of an emitted table.
`timeStr t` stands for the ISO-8601 string produced by `isoformat()` on
the datetime whose POSIX timestamp is `t` seconds. -/
inductive Value where
  | str (s : String)
  | int (n : Int)
  | timeStr (t : Int)
  deriving DecidableEq, Repr

/-- A table cell: `none` models Python `None` / pandas NA. -/
abbrev Cell := Option Value

/-- One record dictionary as appended to `records` in the Python loops:
an ordered association list from field name to cell. -/
abbrev Record := List (String × Cell)

/-- Dictionary lookup used by `DataFrame.from_records` when projecting a
record onto a requested column name; missing keys give NA. -/
def recordLookup (r : Record) (k : String) : Cell :=
  match r.find? (fun p => p.1 == k) with
  | some p => p.2
  | none => none

/-- Project one record dictionary onto a column list, in column order. -/
def projRow (cols : List String) (r : Record) : List Cell :=
  cols.map (recordLookup r)

/-- The result table: `pandas.DataFrame` restricted to what the program
observes of it (column labels and row cells). -/
structure DataFrame where
  columns : List String
  rows : List (List Cell)
  deriving DecidableEq, Repr

/-- `pandas.DataFrame.from_records(records, columns=cols)`: the table has
exactly the columns `cols`; each record is projected onto them, and a
column name not found in the records becomes an all-NA column. -/
def fromRecords (records : List Record) (cols : List String) : DataFrame :=
  { columns := cols, rows := records.map (projRow cols) }

/-- The git (authored-commit) author metadata `commit.commit.author`:
may be absent as a whole, and its parts may individually be absent. -/
structure GitAuthor where
  name : Option String
  email : Option String
  date : Option Int
  deriving DecidableEq, Repr

/-- The authored-commit metadata object `commit.commit`. -/
structure GitCommitData where
  author : Option GitAuthor
  message : Option String
  deriving DecidableEq, Repr

/-- A remote commit object as yielded by `repo.get_commits()`. -/
structure Commit where
  sha : String
  commit : GitCommitData
  deriving DecidableEq, Repr

/-- The newline character. -/
def newlineChar : Char := Char.ofNat 10

/-- Index of the first newline in a character list, if any. -/
def firstNLIdx : List Char → Option Nat
  | [] => none
  | ch :: rest =>
    if ch == newlineChar then some 0 else (firstNLIdx rest).map (fun i => i + 1)

/-- Python `s.split("\n", 1)[0]`: the part of `s` before the first
newline, or all of `s` when it has no newline. -/
def splitOnceNL (s : String) : String :=
  match firstNLIdx s.data with
  | some i => String.mk (s.data.take i)
  | none => s

/-- Line 45 of the source:
`message = commit_data.message.split("\n", 1)[0] if commit_data.message else ""`
(`None` and the empty string are both falsy). -/
def firstLine (msg : Option String) : String :=
  match msg with
  | none => ""
  | some s => if s = "" then "" else splitOnceNL s

def kSha : String := "sha"
def kAuthorName : String := "author_name"
def kAuthorEmail : String := "author_email"
def kDate : String := "date"
def kMessage : String := "message"
def kAuthor : String := "author"
def kEmail : String := "email"

/-- The column list passed to `from_records` on line 60 of the source. -/
def commitColumns : List String := [kSha, kAuthor, kEmail, kDate, kMessage]

/-- Lines 40-53 of the source: normalization of one commit into a record
dictionary.  The author fields read the authored-commit metadata and are
`None` when `commit.commit.author` is absent (or when the individual
attribute is itself `None`); the date is the `isoformat()` rendering. -/
def commitRecord (c : Commit) : Record :=
  [(kSha, some (Value.str c.sha)),
   (kAuthorName, (c.commit.author.bind GitAuthor.name).map Value.str),
   (kAuthorEmail, (c.commit.author.bind GitAuthor.email).map Value.str),
   (kDate, (c.commit.author.bind GitAuthor.date).map Value.timeStr),
   (kMessage, some (Value.str (firstLine c.commit.message)))]

/-- The loop break test (lines 55-57 / 109-111):
`if max is not None and count >= max: break`, evaluated after the count
has been incremented. -/
def breakAfter (m : Option Int) (count : Int) : Bool :=
  match m with
  | none => false
  | some n => decide (n ≤ count)

/-- Lines 37-57 of the source: the commit loop.  Every commit is
appended as a record, the counter incremented, and the loop breaks when
the counter reaches `max_commits`. -/
def commitsLoop (m : Option Int) : List Commit → Int → List Record
  | [], _ => []
  | c :: rest, count =>
    let r := commitRecord c
    let count1 := count + 1
    if breakAfter m count1 then [r] else r :: commitsLoop m rest count1

/-- Client/API interactions performed by a run, in program order. -/
inductive Event where
  | clientAuth (token : String)
  | getRepo (name : String)
  | listCommits
  | listIssues (state : String)
  deriving DecidableEq, Repr

/-- Lines 24-26 / 70-72: `os.environ.get("GITHUB_TOKEN")` followed by the
falsiness check (`None` and the empty string are both falsy); returns the
token when present and non-empty. -/
def getToken (env : Option String) : Option String :=
  match env with
  | none => none
  | some s => if s = "" then none else some s

def missingTokenMsg : String := "GITHUB_TOKEN not found in environment variables"

/-- `fetch_commits(repo_name, max_commits)`.  `env` is the value of the
`GITHUB_TOKEN` environment variable; `commits` is the content of the
remote collection `repo.get_commits()`.  Returns the event trace and the
result: an `EnvironmentError` when the token check fails (before any
client construction or network call, hence the empty trace), otherwise
the DataFrame built from the normalized records. -/
def fetch_commits (env : Option String) (repo_name : String)
    (commits : List Commit) (max_commits : Option Int) :
    List Event × Except String DataFrame :=
  match getToken env with
  | none => ([], Except.error missingTokenMsg)
  | some tok =>
    ([Event.clientAuth tok, Event.getRepo repo_name, Event.listCommits],
     Except.ok (fromRecords (commitsLoop max_commits commits 0) commitColumns))

/-- The hosting account `issue.user` (only its `login` is read). -/
structure IssueUser where
  login : String
  deriving DecidableEq, Repr

/-- A remote issue object as yielded by `repo.get_issues(state=state)`.
`pull_request` is `some ()` exactly when the API flags the item as a
pull request (`issue.pull_request is not None`). -/
structure Issue where
  id : Int
  number : Int
  title : String
  user : Option IssueUser
  state : String
  created_at : Option Int
  closed_at : Option Int
  comments : Int
  pull_request : Option Unit
  deriving DecidableEq, Repr

def kId : String := "id"
def kNumber : String := "number"
def kTitle : String := "title"
def kUser : String := "user"
def kState : String := "state"
def kCreatedAt : String := "created_at"
def kClosedAt : String := "closed_at"
def kComments : String := "comments"
def kOpenDuration : String := "open_duration_days"

/-- The column list passed to `from_records` on lines 116-120. -/
def issueColumns : List String :=
  [kId, kNumber, kTitle, kUser, kState, kCreatedAt, kClosedAt, kComments, kOpenDuration]

def secondsPerDay : Int := 86400

/-- Lines 92-95 of the source:
`open_duration_days = None`, then when both `closed_at` and `created_at`
are present, `delta = closed_at - created_at; open_duration_days = delta.days`.
Python `timedelta.days` is the floor (toward negative infinity) of the
signed difference in days, hence `Int.fdiv` of the second difference. -/
def open_duration_days (i : Issue) : Cell :=
  match i.closed_at, i.created_at with
  | some cl, some cr => some (Value.int (Int.fdiv (cl - cr) secondsPerDay))
  | _, _ => none

/-- Lines 90-107 of the source: normalization of one (non-PR) issue into
a record dictionary. -/
def issueRecord (i : Issue) : Record :=
  [(kId, some (Value.int i.id)),
   (kNumber, some (Value.int i.number)),
   (kTitle, some (Value.str i.title)),
   (kUser, i.user.map (fun u => Value.str u.login)),
   (kState, some (Value.str i.state)),
   (kCreatedAt, i.created_at.map Value.timeStr),
   (kClosedAt, i.closed_at.map Value.timeStr),
   (kComments, some (Value.int i.comments)),
   (kOpenDuration, open_duration_days i)]

/-- Lines 83-111 of the source: the issue loop.  Pull requests are
skipped with `continue` before the counter is touched; every retained
issue is appended, the counter incremented, and the loop breaks when the
counter reaches `max_issues`. -/
def issuesLoop (m : Option Int) : List Issue → Int → List Record
  | [], _ => []
  | i :: rest, count =>
    if i.pull_request.isSome then issuesLoop m rest count
    else
      let r := issueRecord i
      let count1 := count + 1
      if breakAfter m count1 then [r] else r :: issuesLoop m rest count1

/-- `fetch_issues(repo_name, state, max_issues)`.  `issues` is the content
of the remote collection `repo.get_issues(state=state)` (the state filter
is applied server-side by the external client). -/
def fetch_issues (env : Option String) (repo_name : String) (state : String)
    (issues : List Issue) (max_issues : Option Int) :
    List Event × Except String DataFrame :=
  match getToken env with
  | none => ([], Except.error missingTokenMsg)
  | some tok =>
    ([Event.clientAuth tok, Event.getRepo repo_name, Event.listIssues state],
     Except.ok (fromRecords (issuesLoop max_issues issues 0) issueColumns))

/-- Rows of a successful result (`[]` on error); convenience projection
for stating row-count facts. -/
def okRows (e : Except String DataFrame) : List (List Cell) :=
  match e with
  | Except.ok df => df.rows
  | Except.error _ => []

/-- The retained (non-pull-request) issues of a collection. -/
def nonPR (issues : List Issue) : List Issue :=
  issues.filter (fun i => i.pull_request.isNone)

/- Concrete inputs used by witnesses and counterexamples. -/

def exToken : String := "ghp_token"
def exRepoName : String := "octo/widgets"

def exAuthor : GitAuthor :=
  { name := some ("Alice"), email := some ("alice@example.com"), date := some 1700000000 }

/-- A commit whose authored-commit metadata is fully present. -/
def exCommitFull : Commit :=
  { sha := "abc123", commit := { author := some exAuthor, message := some ("Initial commit") } }

/-- A second commit, used for the cap counterexample. -/
def exCommitB : Commit :=
  { sha := "def456", commit := { author := some exAuthor, message := some ("Fix overflow") } }

/-- A commit with a multi-line message. -/
def exCommitMsg : Commit :=
  { sha := "msha", commit := { author := none, message := some ("line one\nline two") } }

/-- The spec example issue: created 2024-01-01T00:00:00Z (timestamp
1704067200) and closed 2024-01-05T12:00:00Z (timestamp 1704456000),
4.5 days later. -/
def exIssueEx : Issue :=
  { id := 1, number := 10, title := "Crash on startup",
    user := some { login := "alice" }, state := "closed",
    created_at := some 1704067200, closed_at := some 1704456000,
    comments := 3, pull_request := none }

/-- An item flagged as a pull request by the API. -/
def exIssuePR : Issue :=
  { id := 2, number := 11, title := "Add feature",
    user := some { login := "bob" }, state := "open",
    created_at := some 1704067200, closed_at := none,
    comments := 0, pull_request := some () }

/-- A plain open issue. -/
def exIssueB : Issue :=
  { id := 3, number := 12, title := "Docs typo",
    user := none, state := "open",
    created_at := some 1704067200, closed_at := none,
    comments := 1, pull_request := none }

/-- An issue whose `closed_at` precedes its `created_at` by 12 hours. -/
def exIssueNeg : Issue :=
  { id := 4, number := 13, title := "Clock skew",
    user := some { login := "carol" }, state := "closed",
    created_at := some 86400, closed_at := some 43200,
    comments := 0, pull_request := none }

end RepoMiner

namespace RepoMiner

/- Structural lemmas: the loops are take/filter/map compositions. -/

/-- Without a cap the commit loop maps over the whole collection. -/
theorem commitsLoop_none (l : List Commit) (c : Int) :
    commitsLoop none l c = l.map commitRecord := by
  induction l generalizing c with
  | nil => rfl
  | cons x rest ih => simp [commitsLoop, breakAfter, ih]

/-- With cap `n` and counter `c` the commit loop takes
`max 1 (n - c).toNat` items (at least one record is appended before the
break test runs) and maps the normalizer over them. -/
theorem commitsLoop_some (n : Int) (l : List Commit) :
    ∀ c : Int,
      commitsLoop (some n) l c = (l.take (max 1 (n - c).toNat)).map commitRecord := by
  induction l with
  | nil => intro c; simp [commitsLoop]
  | cons x rest ih =>
    intro c
    by_cases h : n ≤ c + 1
    · have hb : breakAfter (some n) (c + 1) = true := by
        simp [breakAfter]; omega
      have h1 : max 1 (n - c).toNat = 1 := by omega
      simp [commitsLoop, hb, h1]
    · have hb : breakAfter (some n) (c + 1) = false := by
        simp [breakAfter]; omega
      have h1 : max 1 (n - c).toNat = max 1 (n - (c + 1)).toNat + 1 := by omega
      rw [commitsLoop, h1]
      simp [hb, List.take_succ_cons, ih (c + 1)]

/-- Without a cap the issue loop maps over the retained (non-PR) part of
the collection. -/
theorem issuesLoop_none (l : List Issue) (c : Int) :
    issuesLoop none l c = (nonPR l).map issueRecord := by
  simp only [nonPR]
  induction l generalizing c with
  | nil => rfl
  | cons x rest ih =>
    rw [issuesLoop, List.filter_cons]
    cases hpr : x.pull_request with
    | some u => simpa using ih c
    | none => simp [breakAfter, ih]

/-- With cap `n` and counter `c` the issue loop takes
`max 1 (n - c).toNat` retained (non-PR) items and maps the normalizer
over them; skipped pull requests do not advance the counter. -/
theorem issuesLoop_some (n : Int) (l : List Issue) :
    ∀ c : Int,
      issuesLoop (some n) l c = ((nonPR l).take (max 1 (n - c).toNat)).map issueRecord := by
  simp only [nonPR]
  induction l with
  | nil => intro c; simp [issuesLoop]
  | cons x rest ih =>
    intro c
    rw [issuesLoop, List.filter_cons]
    cases hpr : x.pull_request with
    | some u => simpa using ih c
    | none =>
      by_cases h : n ≤ c + 1
      · have hb : breakAfter (some n) (c + 1) = true := by
          simp [breakAfter]; omega
        have h1 : max 1 (n - c).toNat = 1 := by omega
        simp [hb, h1]
      · have hb : breakAfter (some n) (c + 1) = false := by
          simp [breakAfter]; omega
        have h1 : max 1 (n - c).toNat = max 1 (n - (c + 1)).toNat + 1 := by omega
        rw [h1]
        simp [hb, List.take_succ_cons, ih (c + 1)]

/- Extraction lemmas for successful runs. -/

/-- A successful `fetch_commits` run returns exactly the table built from
the normalized commit records. -/
theorem fetch_commits_ok {env : Option String} {repo : String} {lc : List Commit}
    {m : Option Int} {tr : List Event} {df : DataFrame}
    (h : fetch_commits env repo lc m = (tr, Except.ok df)) :
    df = fromRecords (commitsLoop m lc 0) commitColumns := by
  unfold fetch_commits at h
  cases hg : getToken env <;> rw [hg] at h <;> simp_all

/-- A successful `fetch_issues` run returns exactly the table built from
the normalized issue records. -/
theorem fetch_issues_ok {env : Option String} {repo st : String} {li : List Issue}
    {m : Option Int} {tr : List Event} {df : DataFrame}
    (h : fetch_issues env repo st li m = (tr, Except.ok df)) :
    df = fromRecords (issuesLoop m li 0) issueColumns := by
  unfold fetch_issues at h
  cases hg : getToken env <;> rw [hg] at h <;> simp_all

/- Field lookups on the normalized records. -/

theorem lookup_commit_author_name (c : Commit) :
    recordLookup (commitRecord c) kAuthorName
      = (c.commit.author.bind GitAuthor.name).map Value.str := rfl

theorem lookup_commit_author_email (c : Commit) :
    recordLookup (commitRecord c) kAuthorEmail
      = (c.commit.author.bind GitAuthor.email).map Value.str := rfl

theorem lookup_commit_date (c : Commit) :
    recordLookup (commitRecord c) kDate
      = (c.commit.author.bind GitAuthor.date).map Value.timeStr := rfl

theorem lookup_commit_message (c : Commit) :
    recordLookup (commitRecord c) kMessage
      = some (Value.str (firstLine c.commit.message)) := rfl

theorem lookup_issue_open_duration (i : Issue) :
    recordLookup (issueRecord i) kOpenDuration = open_duration_days i := rfl

theorem lookup_issue_created (i : Issue) :
    recordLookup (issueRecord i) kCreatedAt = i.created_at.map Value.timeStr := rfl

theorem lookup_issue_closed (i : Issue) :
    recordLookup (issueRecord i) kClosedAt = i.closed_at.map Value.timeStr := rfl

/-- The projected commit row: the `author` and `email` column names do
not occur among the record keys (`author_name`, `author_email`), so the
corresponding cells are NA. -/
theorem projRow_commit (c : Commit) :
    projRow commitColumns (commitRecord c)
      = [some (Value.str c.sha), none, none,
         (c.commit.author.bind GitAuthor.date).map Value.timeStr,
         some (Value.str (firstLine c.commit.message))] := rfl

/- The first-line computation. -/

/-- Taking up to the first newline index is taking while not a newline. -/
theorem take_firstNLIdx (l : List Char) :
    (match firstNLIdx l with
     | some i => l.take i
     | none => l) = l.takeWhile (fun ch => ch != newlineChar) := by
  induction l with
  | nil => rfl
  | cons a rest ih =>
    rw [firstNLIdx]
    by_cases h : a == newlineChar
    · have ha : a = newlineChar := by simpa using h
      simp [h, ha]
    · have ha : ¬ a = newlineChar := by simpa using h
      simp only [h, if_false, Bool.false_eq_true]
      cases hr : firstNLIdx rest with
      | none =>
        rw [hr] at ih
        simp [List.takeWhile_cons, ha]
        exact ih
      | some i =>
        rw [hr] at ih
        simp [List.takeWhile_cons, ha, List.take_succ_cons]
        exact ih

/-- `splitOnceNL` is the maximal newline-free prefix. -/
theorem splitOnceNL_eq_takeWhile (s : String) :
    splitOnceNL s = String.mk (s.data.takeWhile (fun ch => ch != newlineChar)) := by
  cases s with
  | mk l =>
    rw [splitOnceNL]
    rw [show (String.mk l).data = l from rfl]
    rw [← take_firstNLIdx l]
    cases hr : firstNLIdx l <;> rfl

/-- The newline character never occurs in `splitOnceNL s`. -/
theorem newline_not_mem_splitOnceNL (s : String) :
    newlineChar ∉ (splitOnceNL s).data := by
  rw [splitOnceNL_eq_takeWhile]
  intro hmem
  have := List.mem_takeWhile_imp hmem
  simp at this

/-- The newline character never occurs in a normalized message. -/
theorem newline_not_mem_firstLine (msg : Option String) :
    newlineChar ∉ (firstLine msg).data := by
  cases msg with
  | none => decide
  | some s =>
    by_cases h : s = ""
    · subst h; decide
    · simp only [firstLine, h, if_false]
      exact newline_not_mem_splitOnceNL s

/-- Every record produced by the issue loop is the normalization of a
retained (non-pull-request) member of the source collection. -/
theorem issuesLoop_mem {m : Option Int} {li : List Issue} {r : Record}
    (hr : r ∈ issuesLoop m li 0) :
    ∃ i, i ∈ li ∧ i.pull_request = none ∧ r = issueRecord i := by
  have hmem : ∃ i, i ∈ nonPR li ∧ r = issueRecord i := by
    cases m with
    | none =>
      rw [issuesLoop_none] at hr
      obtain ⟨i, hi, hri⟩ := List.mem_map.mp hr
      exact ⟨i, hi, hri.symm⟩
    | some n =>
      rw [issuesLoop_some] at hr
      obtain ⟨i, hi, hri⟩ := List.mem_map.mp hr
      exact ⟨i, List.take_subset _ _ hi, hri.symm⟩
  obtain ⟨i, hi, hri⟩ := hmem
  rw [nonPR, List.mem_filter] at hi
  refine ⟨i, hi.1, ?_, hri⟩
  cases hpr : i.pull_request with
  | none => rfl
  | some u => rw [hpr] at hi; simp at hi

/- ------------------------------------------------------------------ -/
/- Claims                                                              -/
/- ------------------------------------------------------------------ -/

/-- Claim C1 (code bug evidence): the per-commit record dictionary does
carry the authored-commit author name, email and date, but the returned
table is built with the column list `sha, author, email, date, message`
(line 60), which does not contain the record keys `author_name` and
`author_email`; hence even for a commit whose author metadata is fully
present, the returned table's author and email cells are NA, contradicting
the claim that those fields are present in the returned table. -/
theorem C1_author_fields_dropped_in_table :
    recordLookup (commitRecord exCommitFull) kAuthorName = some (Value.str ("Alice")) ∧
    recordLookup (commitRecord exCommitFull) kAuthorEmail
      = some (Value.str ("alice@example.com")) ∧
    recordLookup (commitRecord exCommitFull) kDate = some (Value.timeStr 1700000000) ∧
    fetch_commits (some exToken) exRepoName [exCommitFull] none
      = ([Event.clientAuth exToken, Event.getRepo exRepoName, Event.listCommits],
         Except.ok
           { columns := commitColumns,
             rows := [[some (Value.str ("abc123")), none, none,
                       some (Value.timeStr 1700000000),
                       some (Value.str ("Initial commit"))]] }) := by
  exact ⟨rfl, rfl, rfl, rfl⟩

/-- Claim C2 counterexample: with `maxCount = 0` and one available commit
the run emits one row, while the claim demands `min(0, 1) = 0` rows: the
loop appends a record before testing the cap. -/
theorem C2_zero_cap_counterexample :
    (okRows (fetch_commits (some exToken) exRepoName [exCommitB] (some 0)).2).length = 1 ∧
    min (Int.toNat 0) [exCommitB].length = 0 ∧
    (okRows (fetch_commits (some exToken) exRepoName [exCommitB] (some 0)).2).length
      ≠ min (Int.toNat 0) [exCommitB].length := by
  refine ⟨?_, rfl, ?_⟩ <;> decide

/-- Claim C2 (amended): for a specified cap N ≥ 1 the emitted row count
is min(N, available records) for commits and, counting only non-PR
items, min(N, available non-PR records) for issues; for N ≤ 0 the row
count is min(1, available) — one row, not zero, whenever at least one
matching record is available. -/
theorem C2_row_count_amended (env : Option String) (tok repoC repoI st : String)
    (lc : List Commit) (li : List Issue) (n : Int)
    (henv : getToken env = some tok) :
    (okRows (fetch_commits env repoC lc (some n)).2).length
      = (if 1 ≤ n then min n.toNat lc.length else min 1 lc.length) ∧
    (okRows (fetch_issues env repoI st li (some n)).2).length
      = (if 1 ≤ n then min n.toNat (nonPR li).length
         else min 1 (nonPR li).length) := by
  constructor
  · unfold fetch_commits
    rw [henv]
    simp only [okRows, fromRecords]
    rw [commitsLoop_some n lc 0]
    simp only [List.length_map, List.length_take]
    by_cases h1 : 1 ≤ n
    · have hm : max 1 (n - 0).toNat = n.toNat := by omega
      rw [hm, if_pos h1]
    · have hm : max 1 (n - 0).toNat = 1 := by omega
      rw [hm, if_neg h1]
  · unfold fetch_issues
    rw [henv]
    simp only [okRows, fromRecords]
    rw [issuesLoop_some n li 0]
    simp only [List.length_map, List.length_take]
    by_cases h1 : 1 ≤ n
    · have hm : max 1 (n - 0).toNat = n.toNat := by omega
      rw [hm, if_pos h1]
    · have hm : max 1 (n - 0).toNat = 1 := by omega
      rw [hm, if_neg h1]

/-- Claim C2 witness: the amended count law at a concrete run with cap 2,
two commits, and one PR plus one plain issue. -/
theorem C2_row_count_amended_witness :
    (okRows (fetch_commits (some exToken) exRepoName [exCommitB, exCommitMsg] (some 2)).2).length
      = (if 1 ≤ (2 : Int) then min (Int.toNat 2) [exCommitB, exCommitMsg].length
         else min 1 [exCommitB, exCommitMsg].length) ∧
    (okRows (fetch_issues (some exToken) exRepoName ("all") [exIssuePR, exIssueB] (some 2)).2).length
      = (if 1 ≤ (2 : Int) then min (Int.toNat 2) (nonPR [exIssuePR, exIssueB]).length
         else min 1 (nonPR [exIssuePR, exIssueB]).length) :=
  C2_row_count_amended (some exToken) exToken exRepoName exRepoName ("all")
    [exCommitB, exCommitMsg] [exIssuePR, exIssueB] 2 rfl

/-- Claim C3: every record emitted by the issue pipeline is the
normalization of a source issue; on a normalized record the
`open_duration_days` field is present exactly when both `created_at` and
`closed_at` are present on the source issue, and when present it equals
the floor (toward negative infinity, i.e. truncation to whole days) of
the day difference `closed_at - created_at`. -/
theorem C3_open_duration_days (m : Option Int) (li : List Issue) :
    (∀ r ∈ issuesLoop m li 0, ∃ i, i ∈ li ∧ r = issueRecord i) ∧
    (∀ i : Issue,
      ((recordLookup (issueRecord i) kOpenDuration).isSome
          ↔ (i.created_at.isSome ∧ i.closed_at.isSome)) ∧
      (∀ cr cl : Int, i.created_at = some cr → i.closed_at = some cl →
        recordLookup (issueRecord i) kOpenDuration
          = some (Value.int (Int.fdiv (cl - cr) secondsPerDay)))) := by
  constructor
  · intro r hr
    obtain ⟨i, hi, _, hri⟩ := issuesLoop_mem hr
    exact ⟨i, hi, hri⟩
  · intro i
    constructor
    · rw [lookup_issue_open_duration]
      cases hc : i.created_at <;> cases hl : i.closed_at <;>
        simp [open_duration_days, hc, hl]
    · intro cr cl hcr hcl
      rw [lookup_issue_open_duration]
      simp [open_duration_days, hcr, hcl]

/-- Claim C3 witness: the spec example — an issue created at
2024-01-01T00:00:00Z and closed at 2024-01-05T12:00:00Z (4.5 days later)
is emitted with `open_duration_days = 4`. -/
theorem C3_open_duration_days_witness :
    (∃ i, i ∈ [exIssueEx] ∧ issueRecord exIssueEx = issueRecord i) ∧
    recordLookup (issueRecord exIssueEx) kOpenDuration
      = some (Value.int (Int.fdiv (1704456000 - 1704067200) secondsPerDay)) ∧
    recordLookup (issueRecord exIssueEx) kOpenDuration = some (Value.int 4) := by
  have h := C3_open_duration_days none [exIssueEx]
  refine ⟨h.1 (issueRecord exIssueEx) (by decide), ?_, ?_⟩
  · exact (h.2 exIssueEx).2 1704067200 1704456000 rfl rfl
  · rw [(h.2 exIssueEx).2 1704067200 1704456000 rfl rfl]
    decide

/-- Claim C4: the emitted message field is the prefix of the full commit
message up to and not including the first newline — the empty string
when the message is empty or absent — and consequently never contains a
newline character; the last cell of the emitted table row carries that
same value. -/
theorem C4_message_first_line (c : Commit) :
    recordLookup (commitRecord c) kMessage
      = some (Value.str (firstLine c.commit.message)) ∧
    (c.commit.message = none → firstLine c.commit.message = "") ∧
    (∀ s : String, c.commit.message = some s →
      firstLine c.commit.message
        = String.mk (s.data.takeWhile (fun ch => ch != newlineChar))) ∧
    newlineChar ∉ (firstLine c.commit.message).data ∧
    (projRow commitColumns (commitRecord c)).getD 4 none
      = some (Value.str (firstLine c.commit.message)) := by
  refine ⟨lookup_commit_message c, ?_, ?_, newline_not_mem_firstLine _, ?_⟩
  · intro h; rw [h]; rfl
  · intro s hs
    rw [hs]
    by_cases h : s = ""
    · subst h; rfl
    · simp only [firstLine, h, if_false]
      exact splitOnceNL_eq_takeWhile s
  · rw [projRow_commit]; rfl

/-- Claim C4 witness: a commit whose message is two lines is emitted
with only the first line, which is newline-free. -/
theorem C4_message_first_line_witness :
    recordLookup (commitRecord exCommitMsg) kMessage
      = some (Value.str (firstLine exCommitMsg.commit.message)) ∧
    firstLine exCommitMsg.commit.message
      = String.mk (("line one\nline two").data.takeWhile (fun ch => ch != newlineChar)) ∧
    firstLine exCommitMsg.commit.message = "line one" ∧
    newlineChar ∉ (firstLine exCommitMsg.commit.message).data := by
  have h := C4_message_first_line exCommitMsg
  exact ⟨h.1, h.2.2.1 ("line one\nline two") rfl, by decide, h.2.2.2.1⟩

/-- Claim C5 counterexample: with `maxCount = 0` and a collection holding
one pull request and one plain issue, the run emits one row, so the
claimed bound "maxCount bounds the number of retained non-PR records"
fails for maxCount 0. -/
theorem C5_cap_bound_counterexample :
    (okRows (fetch_issues (some exToken) exRepoName ("all") [exIssuePR, exIssueB] (some 0)).2).length
      = 1 ∧
    ¬ ((okRows (fetch_issues (some exToken) exRepoName ("all") [exIssuePR, exIssueB] (some 0)).2).length
        ≤ Int.toNat 0) := by
  refine ⟨?_, ?_⟩ <;> decide

/-- Claim C5 (amended): no emitted record corresponds to an item flagged
as a pull request — such items are skipped entirely and do not count
toward `maxCount` — and any specified `maxCount = N` with N ≥ 1 bounds
the number of emitted records: exactly min(N, available non-PR records)
rows (a nonpositive cap still yields one record when a non-PR item is
available). -/
theorem C5_pr_skip_amended (m : Option Int) (li : List Issue) :
    (∀ r ∈ issuesLoop m li 0,
      ∃ i, i ∈ li ∧ i.pull_request = none ∧ r = issueRecord i) ∧
    (∀ n : Int, m = some n → 1 ≤ n →
      (issuesLoop m li 0).length = min n.toNat (nonPR li).length) := by
  constructor
  · intro r hr
    exact issuesLoop_mem hr
  · intro n hm h1
    subst hm
    rw [issuesLoop_some n li 0, List.length_map, List.length_take]
    have hmx : max 1 (n - 0).toNat = n.toNat := by omega
    rw [hmx]

/-- Claim C5 witness: with cap 1 over a PR followed by a plain issue, the
plain issue is the single emitted record and the PR is never emitted. -/
theorem C5_pr_skip_amended_witness :
    (issuesLoop (some 1) [exIssuePR, exIssueB] 0).length
      = min (Int.toNat 1) (nonPR [exIssuePR, exIssueB]).length ∧
    (∃ i, i ∈ [exIssuePR, exIssueB] ∧ i.pull_request = none ∧
      issueRecord exIssueB = issueRecord i) := by
  have h := C5_pr_skip_amended (some 1) [exIssuePR, exIssueB]
  exact ⟨h.2 1 rfl (by decide), h.1 (issueRecord exIssueB) (by decide)⟩

/-- Claim C6: with the credential environment variable absent or empty,
both pipelines fail with the missing-credential error and an empty event
trace — no client is constructed and no remote collection is opened;
with a present, non-empty value, the run proceeds and the first event
authenticates the client with exactly that value as the token. -/
theorem C6_credential_gate (env : Option String) (repoC repoI st : String)
    (lc : List Commit) (li : List Issue) (mc mi : Option Int) :
    ((env = none ∨ env = some "") →
      fetch_commits env repoC lc mc = ([], Except.error missingTokenMsg) ∧
      fetch_issues env repoI st li mi = ([], Except.error missingTokenMsg)) ∧
    (∀ s : String, env = some s → s ≠ "" →
      (fetch_commits env repoC lc mc).1
        = [Event.clientAuth s, Event.getRepo repoC, Event.listCommits] ∧
      (fetch_issues env repoI st li mi).1
        = [Event.clientAuth s, Event.getRepo repoI, Event.listIssues st]) := by
  constructor
  · rintro (rfl | rfl) <;> exact ⟨rfl, rfl⟩
  · rintro s rfl hs
    have hg : getToken (some s) = some s := by simp [getToken, hs]
    constructor
    · unfold fetch_commits; rw [hg]
    · unfold fetch_issues; rw [hg]

/-- Claim C6 witness: a missing variable aborts both runs with the
missing-credential error and no events; the value of a present non-empty
variable is the token handed to the client. -/
theorem C6_credential_gate_witness :
    (fetch_commits none exRepoName [] none = ([], Except.error missingTokenMsg) ∧
     fetch_issues none exRepoName ("all") [] none = ([], Except.error missingTokenMsg)) ∧
    ((fetch_commits (some exToken) exRepoName [] none).1
        = [Event.clientAuth exToken, Event.getRepo exRepoName, Event.listCommits] ∧
     (fetch_issues (some exToken) exRepoName ("all") [] none).1
        = [Event.clientAuth exToken, Event.getRepo exRepoName, Event.listIssues ("all")]) :=
  ⟨(C6_credential_gate none exRepoName exRepoName ("all") [] [] none none).1 (Or.inl rfl),
   (C6_credential_gate (some exToken) exRepoName exRepoName ("all") [] [] none none).2
     exToken rfl (by decide)⟩

/-- Claim C7: with `maxCount` absent, a successful commit run emits the
normalization of every available commit and a successful issue run emits
the normalization of every available non-pull-request issue; the cap
logic drops nothing. -/
theorem C7_no_cap_emits_all (env : Option String) (repoC repoI st : String)
    (lc : List Commit) (li : List Issue)
    (tr1 tr2 : List Event) (df1 df2 : DataFrame)
    (h1 : fetch_commits env repoC lc none = (tr1, Except.ok df1))
    (h2 : fetch_issues env repoI st li none = (tr2, Except.ok df2)) :
    df1.rows = lc.map (fun c => projRow commitColumns (commitRecord c)) ∧
    df2.rows = (nonPR li).map (fun i => projRow issueColumns (issueRecord i)) := by
  rw [fetch_commits_ok h1, fetch_issues_ok h2]
  constructor
  · simp only [fromRecords]
    rw [commitsLoop_none, List.map_map]
    rfl
  · simp only [fromRecords]
    rw [issuesLoop_none, List.map_map]
    rfl

/-- Claim C7 witness: a capless run over two commits and over one PR plus
one plain issue emits exactly the two commit rows and the one non-PR
issue row. -/
theorem C7_no_cap_emits_all_witness :
    (fromRecords (commitsLoop none [exCommitFull, exCommitMsg] 0) commitColumns).rows
      = [exCommitFull, exCommitMsg].map (fun c => projRow commitColumns (commitRecord c)) ∧
    (fromRecords (issuesLoop none [exIssuePR, exIssueEx] 0) issueColumns).rows
      = (nonPR [exIssuePR, exIssueEx]).map (fun i => projRow issueColumns (issueRecord i)) :=
  C7_no_cap_emits_all (some exToken) exRepoName exRepoName ("all")
    [exCommitFull, exCommitMsg] [exIssuePR, exIssueEx] _ _ _ _ rfl rfl

/-- Claim C8: a successful run's row sequence is the normalization, in
collection order, of a prefix of the retained remote items — row i is
the normalized i-th retained item; no re-sorting happens. -/
theorem C8_order_preserved (env : Option String) (repoC repoI st : String)
    (lc : List Commit) (li : List Issue) (mc mi : Option Int)
    (tr1 tr2 : List Event) (df1 df2 : DataFrame)
    (h1 : fetch_commits env repoC lc mc = (tr1, Except.ok df1))
    (h2 : fetch_issues env repoI st li mi = (tr2, Except.ok df2)) :
    (∃ k1 : Nat,
      df1.rows = (lc.take k1).map (fun c => projRow commitColumns (commitRecord c))) ∧
    (∃ k2 : Nat,
      df2.rows = ((nonPR li).take k2).map (fun i => projRow issueColumns (issueRecord i))) := by
  rw [fetch_commits_ok h1, fetch_issues_ok h2]
  constructor
  · cases mc with
    | none =>
      refine ⟨lc.length, ?_⟩
      simp only [fromRecords]
      rw [commitsLoop_none, List.take_length, List.map_map]
      rfl
    | some n =>
      refine ⟨max 1 (n - 0).toNat, ?_⟩
      simp only [fromRecords]
      rw [commitsLoop_some n lc 0, List.map_map]
      rfl
  · cases mi with
    | none =>
      refine ⟨(nonPR li).length, ?_⟩
      simp only [fromRecords]
      rw [issuesLoop_none, List.take_length, List.map_map]
      rfl
    | some n =>
      refine ⟨max 1 (n - 0).toNat, ?_⟩
      simp only [fromRecords]
      rw [issuesLoop_some n li 0, List.map_map]
      rfl

/-- Claim C8 witness: a capped run over concrete collections is a mapped
prefix of the retained items. -/
theorem C8_order_preserved_witness :
    (∃ k1 : Nat,
      (fromRecords (commitsLoop (some 1) [exCommitFull, exCommitB] 0) commitColumns).rows
        = ([exCommitFull, exCommitB].take k1).map
            (fun c => projRow commitColumns (commitRecord c))) ∧
    (∃ k2 : Nat,
      (fromRecords (issuesLoop (some 1) [exIssueEx, exIssueB] 0) issueColumns).rows
        = ((nonPR [exIssueEx, exIssueB]).take k2).map
            (fun i => projRow issueColumns (issueRecord i))) :=
  C8_order_preserved (some exToken) exRepoName exRepoName ("all")
    [exCommitFull, exCommitB] [exIssueEx, exIssueB] (some 1) (some 1) _ _ _ _ rfl rfl

/-- Claim C9: the code performs no validation of timestamp ordering — an
issue whose `closed_at` strictly precedes its `created_at` is still
normalized (and, when not a PR, emitted), with `open_duration_days`
equal to the floor toward negative infinity of the signed day
difference, a negative integer; no error and no omitted field. -/
theorem C9_negative_duration (i : Issue) (cr cl : Int)
    (hcr : i.created_at = some cr) (hcl : i.closed_at = some cl) (hlt : cl < cr) :
    recordLookup (issueRecord i) kOpenDuration
      = some (Value.int (Int.fdiv (cl - cr) secondsPerDay)) ∧
    Int.fdiv (cl - cr) secondsPerDay < 0 ∧
    (i.pull_request = none → issuesLoop none [i] 0 = [issueRecord i]) := by
  refine ⟨?_, ?_, ?_⟩
  · rw [lookup_issue_open_duration]
    simp [open_duration_days, hcr, hcl]
  · have hneg : cl - cr < 0 := by omega
    have hb : (0 : Int) ≤ secondsPerDay := by decide
    rw [Int.fdiv_eq_ediv _ hb]
    exact Int.ediv_neg' hneg (by decide)
  · intro hpr
    simp [issuesLoop, hpr, breakAfter]

/-- Claim C9 witness: an issue closed 12 hours before it was created is
emitted with `open_duration_days = -1`. -/
theorem C9_negative_duration_witness :
    recordLookup (issueRecord exIssueNeg) kOpenDuration
      = some (Value.int (Int.fdiv (43200 - 86400) secondsPerDay)) ∧
    Int.fdiv (43200 - 86400) secondsPerDay < 0 ∧
    recordLookup (issueRecord exIssueNeg) kOpenDuration = some (Value.int (-1)) := by
  have h := C9_negative_duration exIssueNeg 86400 43200 rfl rfl (by decide)
  exact ⟨h.1, h.2.1, by decide⟩

/-- Claim C10: every successful run returns a table whose column labels
are a fixed list in a fixed order — `sha, author, email, date, message`
for commits and `id, number, title, user, state, created_at, closed_at,
comments, open_duration_days` for issues — independently of the input
collections, including when they are empty. -/
theorem C10_fixed_columns (env : Option String) (repoC repoI st : String)
    (lc : List Commit) (li : List Issue) (mc mi : Option Int)
    (tr1 tr2 : List Event) (df1 df2 : DataFrame)
    (h1 : fetch_commits env repoC lc mc = (tr1, Except.ok df1))
    (h2 : fetch_issues env repoI st li mi = (tr2, Except.ok df2)) :
    df1.columns = ["sha", "author", "email", "date", "message"] ∧
    df2.columns = ["id", "number", "title", "user", "state",
                   "created_at", "closed_at", "comments", "open_duration_days"] := by
  rw [fetch_commits_ok h1, fetch_issues_ok h2]
  exact ⟨rfl, rfl⟩

/-- Claim C10 witness: the header column lists of runs over empty
collections. -/
theorem C10_fixed_columns_witness :
    (fromRecords (commitsLoop none [] 0) commitColumns).columns
      = ["sha", "author", "email", "date", "message"] ∧
    (fromRecords (issuesLoop none [] 0) issueColumns).columns
      = ["id", "number", "title", "user", "state",
         "created_at", "closed_at", "comments", "open_duration_days"] :=
  C10_fixed_columns (some exToken) exRepoName exRepoName ("all") [] [] none none
    _ _ _ _ rfl rfl

end RepoMiner
